import Mathlib

/-
Shallow embedding of the web event-loop runner
(src/platform_impl/web/event_loop/runner.rs).

Modelling conventions:
* `Instant` and `Duration` are `Nat` milliseconds; `Instant::now()` is passed
  in explicitly as a `now : Nat` argument to the operations that call it.
* The `Rc<Execution<T>>` cell is explicit state passing: every operation takes
  an `Execution T` and returns the updated one.
* The user callback (`Box<dyn FnMut(Event<T>, &mut ControlFlow)>`) is a
  parameter `h : Handler T`: given the delivered event and the current
  control-flow value it returns the control-flow value it wrote and the list
  of user payloads it submitted reentrantly (via the event-loop proxy, the
  only submission path available to a callback) during its execution.
* `RefCell` borrow dynamics are modelled where they are observable.  In
  `handle_event` the source holds `self.0.runner.borrow_mut()` across the
  callback invocation (the borrow guard is a temporary of the `match`
  scrutinee, alive through the whole arm), so any reentrant `send_event` made
  by the callback panics at its first `self.0.runner.borrow()` (inside
  `closed()`).  Likewise the drain step
  `if let Some(event) = self.0.events.borrow_mut().pop_front()
     { self.handle_event(..) }`
  keeps the events `RefMut` alive across the recursive call (pre-2024-edition
  temporary scoping of a `match`/`if let` scrutinee), so the recursive
  invocation panics as soon as it touches the events queue again.  A panic is
  modelled by `none` in the `out` field of a result; the `log` field keeps
  the events that were handed to the callback before the panic.
* `backend::Timeout` and `State` live in files of this repository that are
  outside src/ (backend.rs / state.rs); they are modelled from the spec where
  marked below.
-/

namespace WebRunner

/-- Reason a batch began (crate::event::StartCause restricted to the variants
this runner constructs).  Instants are Nat milliseconds. -/
inductive StartCause where
  | Init : StartCause
  | Poll : StartCause
  | WaitCancelled (start : Nat) (requested_resume : Option Nat) : StartCause
deriving DecidableEq

/-- Events flowing through the runner.  `UserEvent` stands for every payload
event (user events, window events, device events, ...): runner.rs treats all
of them uniformly, only `NewEvents`, `EventsCleared` and `LoopDestroyed` are
matched specially. -/
inductive Event (T : Type) where
  | NewEvents (cause : StartCause) : Event T
  | UserEvent (t : T) : Event T
  | EventsCleared : Event T
  | LoopDestroyed : Event T
deriving DecidableEq

/-- The control-flow decision written by the callback
(crate::event_loop::ControlFlow). -/
inductive ControlFlow where
  | Poll : ControlFlow
  | Wait : ControlFlow
  | WaitUntil (end_ : Nat) : ControlFlow
  | Exit : ControlFlow
deriving DecidableEq

/-- The scheduling state (super::state::State).  state.rs is not under src/;
the shape of the variants is reconstructed from every use in runner.rs: the
`timeout` fields hold the handle of the owned `backend::Timeout` (here the
index of the timer in the timer store). -/
inductive State where
  | Init : State
  | Poll (timeout : Nat) : State
  | Wait (start : Nat) : State
  | WaitUntil (start : Nat) (end_ : Nat) (timeout : Nat) : State
  | Exit : State
deriving DecidableEq

/-- Modelled from the spec: `State::is_exit` lives in state.rs (not under
src/); per the spec the loop is terminated iff the state is `Terminated`
(`Exit`). -/
def State.is_exit : State → Bool
  | State.Exit => true
  | _ => false

/-- Modelled from the spec: the `From<State> for ControlFlow` impl lives in
state.rs (not under src/); per the spec the current decision is the
projection of the live Scheduling State back into a Control-Flow Decision,
defaulting to `ContinuePolling` (`Poll`) when uninitialized. -/
def State.toControlFlow : State → ControlFlow
  | State.Init => ControlFlow.Poll
  | State.Poll _ => ControlFlow.Poll
  | State.Wait _ => ControlFlow.Wait
  | State.WaitUntil _ e _ => ControlFlow.WaitUntil e
  | State.Exit => ControlFlow.Exit

/-- A scheduled timer of the external timer collaborator.  Modelled from the
spec: `backend::Timeout` is not under src/; the spec's contract is
`schedule(delay, on_fire) -> TimerHandle` / `cancel(handle)`, `on_fire`
invoked at most once and never after `cancel`.  Both closures this runner
passes to `Timeout::new` call `send_event(Event::NewEvents(StartCause::Poll))`
(runner.rs, `apply_control_flow`), so a timer record only needs its delay and
whether it is still live (armed, not yet fired and not cancelled). -/
structure Timeout where
  delay : Nat
  live : Bool
deriving DecidableEq

/-- The `Runner` struct.  Its `event_handler` box is not stored here: the
callback is passed to the operations as an explicit `Handler` parameter. -/
structure Runner where
  state : State
  is_busy : Bool
deriving DecidableEq

/-- The `Execution` cell behind the `Shared` handle: the optional runner and
the FIFO event queue, plus the store of timers ever scheduled through the
timer collaborator (`timers i` is the timer with handle `i`; handles are
allocated consecutively, `nextTimer` is the next fresh handle). -/
structure Execution (T : Type) where
  runner : Option Runner
  events : List (Event T)
  timers : Nat → Option Timeout
  nextTimer : Nat

/-- The observable behaviour of one callback invocation: the control-flow
value it leaves behind and the user payloads it submits reentrantly while it
runs.  One `FnMut` invocation is modelled as a pure function of the delivered
event and the control-flow value it is handed. -/
def Handler (T : Type) : Type :=
  Event T → ControlFlow → ControlFlow × List T

/-- `Shared::closed`: the loop is closed iff a runner exists and its state is
`Exit`; with no runner it is not yet initialised, hence not closed. -/
def closed {T : Type} (m : Execution T) : Bool :=
  match m.runner with
  | some runner => runner.state.is_exit
  | none => false

/-- `Shared::current_control_flow`: project the live state, `Poll` when no
runner is installed. -/
def current_control_flow {T : Type} (m : Execution T) : ControlFlow :=
  match m.runner with
  | some runner => runner.state.toControlFlow
  | none => ControlFlow.Poll

/-- The start-cause computation of `Shared::send_event` (the body of the
`Some(ref runner) if !runner.is_busy` arm): a `NewEvents` event carries its
own cause and is itself the start marker; otherwise the cause is derived from
the runner's state, and the `State::Exit` arm (`return`) yields `none`. -/
def startCauseOf {T : Type} (event : Event T) (state : State) :
    Option (StartCause × Bool) :=
  match event with
  | Event.NewEvents cause => some (cause, true)
  | _ =>
    match state with
    | State.Init => some (StartCause.Init, false)
    | State.Poll _ => some (StartCause.Poll, false)
    | State.Wait start => some (StartCause.WaitCancelled start none, false)
    | State.WaitUntil start end_ _ =>
        some (StartCause.WaitCancelled start (some end_), false)
    | State.Exit => none

/-- Result of a dispatch step: `log` is the sequence of events handed to the
callback, in order; `out = none` means the step panicked (a `RefCell` borrow
conflict), `out = some (m, c)` is the updated cell and control-flow value. -/
structure DispatchResult (T : Type) where
  log : List (Event T)
  out : Option (Execution T × ControlFlow)

/-- `Shared::handle_event` as entered from its own drain step, i.e. while the
caller's `self.0.events.borrow_mut()` guard is still alive.  Same source text
as `handle_event`; in this borrow context the drain's own
`events.borrow_mut()` (and a `push_back` in the no-runner arm) panics. -/
def handle_event_reentrant {T : Type} (h : Handler T) (m : Execution T)
    (event : Event T) (control : ControlFlow) : DispatchResult T :=
  let cl := closed m
  match m.runner with
  | some runner =>
    let (c2, subs) := h event control
    match subs with
    | [] =>
      let c3 := if cl then ControlFlow.Exit else c2
      let m1 : Execution T :=
        { m with runner := some { runner with is_busy := false } }
      if !cl && m1.runner.isSome then
        -- events.borrow_mut(): the queue is already mutably borrowed → panic
        ⟨[event], none⟩
      else
        ⟨[event], some (m1, c3)⟩
    | _ :: _ =>
      -- the callback called send_event while the runner RefCell is mutably
      -- borrowed by this frame: its closed() check panics
      ⟨[event], none⟩
  | none =>
    -- events.borrow_mut().push_back(event): queue already borrowed → panic
    ⟨[], none⟩

/-- `Shared::handle_event` as called from `send_event` (no outer borrow
alive).  Captures `closed` before the callback, marks the runner busy for the
duration of the callback, forces the control flow back to `Exit` when the
loop was already closed, and then drains one event from the queue — the
recursive call is made while the drain's `events.borrow_mut()` guard is still
alive, hence `handle_event_reentrant`. -/
def handle_event {T : Type} (h : Handler T) (m : Execution T)
    (event : Event T) (control : ControlFlow) : DispatchResult T :=
  let cl := closed m
  match m.runner with
  | some runner =>
    let (c2, subs) := h event control
    match subs with
    | [] =>
      let c3 := if cl then ControlFlow.Exit else c2
      let m1 : Execution T :=
        { m with runner := some { runner with is_busy := false } }
      if !cl && m1.runner.isSome then
        match m1.events with
        | [] => ⟨[event], some (m1, c3)⟩
        | e :: rest =>
          let r := handle_event_reentrant h { m1 with events := rest } e c3
          ⟨event :: r.log, r.out⟩
      else
        ⟨[event], some (m1, c3)⟩
    | _ :: _ =>
      -- reentrant send_event during the callback: runner RefCell is mutably
      -- borrowed by this frame, so its closed() borrow panics
      ⟨[event], none⟩
  | none =>
    -- no runner: queue the event; the drain guard
    -- `!closed && self.0.runner.borrow().is_some()` is false, no recursion
    ⟨[], some ({ m with events := m.events ++ [event] }, control)⟩

/-- Sequencing helper for the `handle_event` calls `send_event` makes:
accumulates the delivery log and propagates a panic. -/
def thenHandle {T : Type} (h : Handler T)
    (acc : List (Event T) × Option (Execution T × ControlFlow))
    (event : Event T) : List (Event T) × Option (Execution T × ControlFlow) :=
  match acc.2 with
  | none => acc
  | some (m, c) =>
    let r := handle_event h m event c
    (acc.1 ++ r.log, r.out)

/-- `backend::Timeout::new` (modelled from the spec's timer contract):
schedule a fresh timer with the given delay, returning its handle. -/
def Timeout.new {T : Type} (m : Execution T) (delay : Nat) :
    Execution T × Nat :=
  ({ m with
      timers := fun j =>
        if j = m.nextTimer then some ⟨delay, true⟩ else m.timers j,
      nextTimer := m.nextTimer + 1 },
    m.nextTimer)

/-- `backend::Timeout::clear` (modelled from the spec's timer contract):
cancel the timer with the given handle, after which it can no longer fire. -/
def Timeout.clear {T : Type} (m : Execution T) (i : Nat) : Execution T :=
  match m.timers i with
  | some t =>
    { m with
        timers := fun j =>
          if j = i then some { t with live := false } else m.timers j }
  | none => m

/-- `Shared::apply_control_flow`: build the new state (arming a timer for
`Poll` and `WaitUntil`), then — if a runner exists — swap it with the old
state and clear the timer the old state owned (`Poll`/`WaitUntil`). -/
def apply_control_flow {T : Type} (m : Execution T)
    (control_flow : ControlFlow) (now : Nat) : Execution T :=
  let built : Execution T × State :=
    match control_flow with
    | ControlFlow.Poll =>
      let p := Timeout.new m 1
      (p.1, State.Poll p.2)
    | ControlFlow.Wait => (m, State.Wait now)
    | ControlFlow.WaitUntil end_ =>
      let delay := if end_ ≤ now then 0 else end_ - now
      let p := Timeout.new m delay
      (p.1, State.WaitUntil now end_ p.2)
    | ControlFlow.Exit => (m, State.Exit)
  let m1 := built.1
  let control_flow_status := built.2
  match m1.runner with
  | some runner =>
    let old := runner.state
    let m2 : Execution T :=
      { m1 with runner := some { runner with state := control_flow_status } }
    match old with
    | State.Poll t => Timeout.clear m2 t
    | State.WaitUntil _ _ t => Timeout.clear m2 t
    | _ => m2
  | none => m1

/-- The batch phase of `Shared::send_event` (the code after the start-cause
computation, factored out): read the current control flow, deliver the start
marker, the event itself unless it was the start marker, and `EventsCleared`,
commit the resulting control flow, and if the loop is closed after the
commit deliver `LoopDestroyed`.  The second component is `none` when some
delivery panicked on a borrow conflict. -/
def runBatch {T : Type} (h : Handler T) (m : Execution T) (event : Event T)
    (now : Nat) (start_cause : StartCause) (event_is_start : Bool) :
    List (Event T) × Option (Execution T) :=
  let control := current_control_flow m
  let s1 := thenHandle h ([], some (m, control))
    (Event.NewEvents start_cause)
  let s2 := if event_is_start then s1 else thenHandle h s1 event
  let s3 := thenHandle h s2 Event.EventsCleared
  match s3.2 with
  | none => (s3.1, none)
  | some (m3, c3) =>
    let m4 := apply_control_flow m3 c3 now
    if closed m4 then
      let r := handle_event h m4 Event.LoopDestroyed c3
      (s3.1 ++ r.log, Option.map Prod.fst r.out)
    else (s3.1, some m4)

/-- `Shared::send_event`: discard when closed; queue when no runner or the
runner is busy; return on the unreachable `State::Exit` start-cause arm;
otherwise run the batch. -/
def send_event {T : Type} (h : Handler T) (m : Execution T) (event : Event T)
    (now : Nat) : List (Event T) × Option (Execution T) :=
  if closed m then ([], some m)
  else
    match m.runner with
    | none => ([], some { m with events := m.events ++ [event] })
    | some runner =>
      if runner.is_busy then
        ([], some { m with events := m.events ++ [event] })
      else
        match startCauseOf event runner.state with
        | none => ([], some m)
        | some (start_cause, event_is_start) =>
          runBatch h m event now start_cause event_is_start

/-- `Shared::set_listener`: install a fresh runner (state `Init`, not busy),
then submit the initial start marker. -/
def set_listener {T : Type} (h : Handler T) (m : Execution T) (now : Nat) :
    List (Event T) × Option (Execution T) :=
  send_event h
    { m with runner := some { state := State.Init, is_busy := false } }
    (Event.NewEvents StartCause.Init) now

/-- The timer collaborator fires the timer with handle `i` (modelled from the
spec's timer contract: fires at most once, never after `cancel`): a live
timer becomes spent and its closure — which for both the `Poll` and the
`WaitUntil` timers of this runner is
`cloned.send_event(Event::NewEvents(StartCause::Poll))` — runs. -/
def fireTimer {T : Type} (h : Handler T) (m : Execution T) (i : Nat)
    (now : Nat) : List (Event T) × Option (Execution T) :=
  match m.timers i with
  | some t =>
    if t.live then
      send_event h
        { m with
            timers := fun j =>
              if j = i then some { t with live := false } else m.timers j }
        (Event.NewEvents StartCause.Poll) now
    else ([], some m)
  | none => ([], some m)

/-- The timer handle a state owns, if any. -/
def State.ownedTimer : State → Option Nat
  | State.Poll t => some t
  | State.WaitUntil _ _ t => some t
  | _ => none

/-- Is the timer with handle `i` live (armed, not fired, not cancelled)? -/
def timerLive {T : Type} (m : Execution T) (i : Nat) : Bool :=
  match m.timers i with
  | some t => t.live
  | none => false

/-- Timer well-formedness: every live timer is the one owned by the current
state, and owned handles were allocated before the next fresh handle. -/
def wfTimers {T : Type} (m : Execution T) : Prop :=
  (∀ i, timerLive m i = true →
    ∃ r, m.runner = some r ∧ r.state.ownedTimer = some i) ∧
  (∀ r i, m.runner = some r → r.state.ownedTimer = some i →
    i < m.nextTimer)

/-- Derived characterization (proof infrastructure, not part of the
embedding): the state `apply_control_flow` builds for a decision, given the
instant and the fresh timer handle. -/
def committedState (cf : ControlFlow) (now fresh : Nat) : State :=
  match cf with
  | ControlFlow.Poll => State.Poll fresh
  | ControlFlow.Wait => State.Wait now
  | ControlFlow.WaitUntil end_ => State.WaitUntil now end_ fresh
  | ControlFlow.Exit => State.Exit

/-- Derived characterization (proof infrastructure): the cell after the
state-building phase of `apply_control_flow` (timer creation only). -/
def builtMachine {T : Type} (m : Execution T) (cf : ControlFlow)
    (now : Nat) : Execution T :=
  match cf with
  | ControlFlow.Poll => (Timeout.new m 1).1
  | ControlFlow.Wait => m
  | ControlFlow.WaitUntil end_ =>
    (Timeout.new m (if end_ ≤ now then 0 else end_ - now)).1
  | ControlFlow.Exit => m

/-- Derived characterization (proof infrastructure): the cell after the
state swap of `apply_control_flow`, before the old timer is cleared. -/
def midMachine {T : Type} (m : Execution T) (r : Runner) (cf : ControlFlow)
    (now : Nat) : Execution T :=
  { builtMachine m cf now with
    runner := some ⟨committedState cf now m.nextTimer, r.is_busy⟩ }

/-! ### Concrete fixtures used by witnesses and counterexamples -/

/-- Handler that writes `Wait` and submits nothing. -/
def quietHandler : Handler Nat := fun _ _ => (ControlFlow.Wait, [])

/-- Handler that writes `Exit` and submits nothing. -/
def exitHandler : Handler Nat := fun _ _ => (ControlFlow.Exit, [])

/-- Handler that, upon receiving `UserEvent 1`, reentrantly submits the user
payload `2`, and otherwise just writes `Poll`. -/
def submitHandler : Handler Nat := fun ev _ =>
  match ev with
  | Event.UserEvent 1 => (ControlFlow.Poll, [2])
  | _ => (ControlFlow.Poll, [])

/-- A runner suspended indefinitely (`Wait` since instant 0), empty queue. -/
def waitMachine : Execution Nat :=
  ⟨some ⟨State.Wait 0, false⟩, [], (fun _ => none), 0⟩

/-- A runner in `WaitUntil{start 0, end 50}` owning the live timer 0 with a
50 ms delay, empty queue. -/
def waitUntilMachine : Execution Nat :=
  ⟨some ⟨State.WaitUntil 0 50 0, false⟩, [],
   (fun i => if i = 0 then some ⟨50, true⟩ else none), 1⟩

/-- A terminated runner. -/
def exitMachine : Execution Nat :=
  ⟨some ⟨State.Exit, false⟩, [], (fun _ => none), 0⟩

/-- No runner installed. -/
def noRunnerMachine : Execution Nat :=
  ⟨none, [], (fun _ => none), 0⟩

/-! ### Helper lemmas -/

theorem is_exit_iff (s : State) : s.is_exit = true ↔ s = State.Exit := by
  cases s <;> simp [State.is_exit]

theorem closed_some {T : Type} {m : Execution T} {r : Runner}
    (hr : m.runner = some r) : closed m = r.state.is_exit := by
  simp [closed, hr]

theorem closed_none {T : Type} {m : Execution T}
    (hr : m.runner = none) : closed m = false := by
  simp [closed, hr]

theorem closed_true_some {T : Type} {m : Execution T}
    (hc : closed m = true) : ∃ r, m.runner = some r ∧ r.state = State.Exit := by
  match hr : m.runner with
  | none => rw [closed_none hr] at hc; exact absurd hc (by simp)
  | some r =>
    rw [closed_some hr] at hc
    exact ⟨r, rfl, (is_exit_iff r.state).mp hc⟩

/-- A reentrant `handle_event` call (made from the drain step, with the
events queue still mutably borrowed) always panics when the loop is not
closed and a runner exists: either the callback's own reentrant submission
hits the runner borrow, or the drain hits the events borrow. -/
theorem handle_event_reentrant_panics {T : Type} (h : Handler T)
    (m : Execution T) (event : Event T) (control : ControlFlow) (r : Runner)
    (hr : m.runner = some r) (hc : closed m = false) :
    (handle_event_reentrant h m event control).out = none := by
  rcases hh : h event control with ⟨c2, subs⟩
  cases subs with
  | nil => simp [handle_event_reentrant, hr, hh, hc]
  | cons a l => simp [handle_event_reentrant, hr, hh]

/-- When `handle_event` returns without panicking, its delivery log is the
event it was handed (runner present) or empty (no runner): a successful call
never drained anything from the queue. -/
theorem handle_event_success_log {T : Type} (h : Handler T)
    (m : Execution T) (event : Event T) (control : ControlFlow)
    (hs : (handle_event h m event control).out.isSome = true) :
    (handle_event h m event control).log = [event] ∨
      (handle_event h m event control).log = [] := by
  match hr : m.runner with
  | none => right; simp [handle_event, hr]
  | some r =>
    rcases hh : h event control with ⟨c2, subs⟩
    cases subs with
    | cons a l => simp [handle_event, hr, hh] at hs
    | nil =>
      cases hc : closed m with
      | true => left; simp [handle_event, hr, hh, hc]
      | false =>
        cases he : m.events with
        | nil => left; simp [handle_event, hr, hh, hc, he]
        | cons e rest =>
          exfalso
          have hx : r.state.is_exit = false := (closed_some hr).symm.trans hc
          have hcl : closed
              { m with
                runner := some { r with is_busy := false },
                events := rest } = false := hx
          have hpanic := handle_event_reentrant_panics h
            { m with runner := some { r with is_busy := false }, events := rest }
            e c2 { r with is_busy := false } rfl hcl
          simp [handle_event, hr, hh, hc, he, hpanic] at hs

/-- With a runner present, `handle_event` hands its argument to the callback
first: the delivery log starts with the event. -/
theorem handle_event_log_cons {T : Type} (h : Handler T) (m : Execution T)
    (event : Event T) (control : ControlFlow) (r : Runner)
    (hr : m.runner = some r) :
    ∃ rest, (handle_event h m event control).log = event :: rest := by
  rcases hh : h event control with ⟨c2, subs⟩
  cases subs with
  | cons a l => exact ⟨[], by simp [handle_event, hr, hh]⟩
  | nil =>
    cases hc : closed m with
    | true => exact ⟨[], by simp [handle_event, hr, hh, hc]⟩
    | false =>
      cases he : m.events with
      | nil => exact ⟨[], by simp [handle_event, hr, hh, hc, he]⟩
      | cons e rest =>
        refine ⟨(handle_event_reentrant h { m with
          runner := some { r with is_busy := false }, events := rest } e
          (if closed m then ControlFlow.Exit else c2)).log, ?_⟩
        simp [handle_event, hr, hh, hc, he]

theorem thenHandle_some {T : Type} {h : Handler T}
    {acc : List (Event T) × Option (Execution T × ControlFlow)}
    {event : Event T} {x : Execution T × ControlFlow}
    (hx : (thenHandle h acc event).2 = some x) :
    ∃ y, acc.2 = some y := by
  match hy : acc.2 with
  | none => simp [thenHandle, hy] at hx
  | some y => exact ⟨y, rfl⟩

/-- A successful `thenHandle` step extends the log by nothing or by exactly
the event it delivered. -/
theorem thenHandle_log {T : Type} {h : Handler T}
    {acc : List (Event T) × Option (Execution T × ControlFlow)}
    {event : Event T} {x : Execution T × ControlFlow}
    (hx : (thenHandle h acc event).2 = some x) :
    (thenHandle h acc event).1 = acc.1 ∨
      (thenHandle h acc event).1 = acc.1 ++ [event] := by
  match hy : acc.2 with
  | none => left; simp [thenHandle, hy]
  | some y =>
    have hs : (handle_event h y.1 event y.2).out.isSome = true := by
      have : (thenHandle h acc event).2 = (handle_event h y.1 event y.2).out := by
        simp [thenHandle, hy]
      rw [this] at hx; simp [hx]
    rcases handle_event_success_log h y.1 event y.2 hs with hl | hl
    · right; simp [thenHandle, hy, hl]
    · left; simp [thenHandle, hy, hl]

/-! ### Claim C8 -/

/-- C8: the read accessors are pure functions of the cell (they are total
functions here, mutating nothing by construction); `closed` is true iff a
runner exists and its state is `Exit` — in particular false when no runner is
installed — and `current_control_flow` is the projection of the live state
into a control-flow decision, `Poll` when no runner is installed. -/
theorem c8_read_accessors {T : Type} (m : Execution T) :
    (closed m = true ↔ ∃ r, m.runner = some r ∧ r.state = State.Exit) ∧
    (m.runner = none →
      closed m = false ∧ current_control_flow m = ControlFlow.Poll) ∧
    (∀ r, m.runner = some r →
      current_control_flow m = r.state.toControlFlow) := by
  refine ⟨⟨closed_true_some, ?_⟩, ?_, ?_⟩
  · rintro ⟨r, hr, hx⟩
    rw [closed_some hr, hx]
    rfl
  · intro hn
    exact ⟨closed_none hn, by simp [current_control_flow, hn]⟩
  · intro r hr
    simp [current_control_flow, hr]

/-- Witness for C8 at concrete cells: a terminated runner is closed, and with
no runner installed the current decision is `Poll`. -/
theorem c8_read_accessors_witness :
    closed exitMachine = true ∧
    current_control_flow noRunnerMachine = ControlFlow.Poll := by
  constructor
  · exact (c8_read_accessors exitMachine).1.mpr
      ⟨⟨State.Exit, false⟩, rfl, rfl⟩
  · exact ((c8_read_accessors noRunnerMachine).2.1 rfl).2

/-! ### Claim C9 -/

/-- C9: the `State::Exit` arm of the start-cause match in `send_event` is
unreachable.  If execution reaches that match — the closed() guard passed
(so `closed` returned false) and a runner exists that is not busy — the
runner's state is not `Exit`, so `startCauseOf` never takes its `none`
(`return`) arm; nothing between the guard and the match mutates the state,
which the model reflects by both reading the same `m`. -/
theorem c9_exit_arm_unreachable {T : Type} (m : Execution T) (r : Runner)
    (hc : closed m = false) (hr : m.runner = some r)
    (hb : r.is_busy = false) :
    r.state ≠ State.Exit ∧
      ∀ event : Event T, startCauseOf event r.state ≠ none := by
  have hx : r.state.is_exit = false := (closed_some hr).symm.trans hc
  have hne : r.state ≠ State.Exit := by
    intro hEq
    rw [hEq] at hx
    simp [State.is_exit] at hx
  refine ⟨hne, ?_⟩
  intro event
  have hgen : ∀ s : State, s ≠ State.Exit → startCauseOf event s ≠ none := by
    intro s hs
    cases event <;> cases s <;> simp [startCauseOf] <;> exact hs rfl
  exact hgen r.state hne

/-- Witness for C9: a waiting, non-busy runner derives a start cause for
every event shape, in particular a payload event. -/
theorem c9_exit_arm_unreachable_witness :
    startCauseOf (Event.UserEvent 1) (State.Wait 0) ≠ none :=
  (c9_exit_arm_unreachable waitMachine ⟨State.Wait 0, false⟩ rfl rfl rfl).2
    (Event.UserEvent 1)

/-! ### Claim C10 -/

/-- C10: `handle_event` invoked (from `send_event`, so with no outer borrow
alive) while no runner is installed appends the event to the back of the
queue, invokes no callback (empty log), leaves the control flow unchanged and
does not recurse — the drain guard requires a runner — so the event remains
queued. -/
theorem c10_no_runner_queues {T : Type} (h : Handler T) (m : Execution T)
    (event : Event T) (control : ControlFlow) (hr : m.runner = none) :
    handle_event h m event control =
      ⟨[], some ({ m with events := m.events ++ [event] }, control)⟩ := by
  simp [handle_event, hr]

/-- Witness for C10 at a concrete cell. -/
theorem c10_no_runner_queues_witness :
    handle_event quietHandler noRunnerMachine (Event.UserEvent 5)
        ControlFlow.Poll =
      ⟨[], some ({ noRunnerMachine with events := [Event.UserEvent 5] },
        ControlFlow.Poll)⟩ :=
  c10_no_runner_queues quietHandler noRunnerMachine (Event.UserEvent 5)
    ControlFlow.Poll rfl

/-! ### Claim C4 -/

/-- C4: `handle_event` captures `closed` before invoking the callback; if the
loop was already terminated at that capture point, then whenever the call
returns (no borrow panic) the control-flow decision is `Exit`, regardless of
the callback `h` and of whatever value it wrote. -/
theorem c4_closed_latch {T : Type} (h : Handler T) (m : Execution T)
    (event : Event T) (control : ControlFlow) (m' : Execution T)
    (c' : ControlFlow) (hc : closed m = true)
    (hout : (handle_event h m event control).out = some (m', c')) :
    c' = ControlFlow.Exit := by
  obtain ⟨r, hr, hx⟩ := closed_true_some hc
  rcases hh : h event control with ⟨c2, subs⟩
  cases subs with
  | cons a l => simp [handle_event, hr, hh] at hout
  | nil =>
    simp [handle_event, hr, hh, hc] at hout
    exact hout.2.symm

/-- Witness for C4: on a terminated cell, a callback that writes `Poll` is
still overridden to `Exit`. -/
theorem c4_closed_latch_witness : ControlFlow.Exit = ControlFlow.Exit :=
  c4_closed_latch quietHandler exitMachine Event.EventsCleared
    ControlFlow.Poll exitMachine ControlFlow.Exit rfl rfl

/-! ### Timer helper lemmas -/

theorem clear_runner {T : Type} (m : Execution T) (i : Nat) :
    (Timeout.clear m i).runner = m.runner := by
  unfold Timeout.clear
  cases m.timers i <;> rfl

theorem clear_nextTimer {T : Type} (m : Execution T) (i : Nat) :
    (Timeout.clear m i).nextTimer = m.nextTimer := by
  unfold Timeout.clear
  cases m.timers i <;> rfl

theorem clear_timers_ne {T : Type} (m : Execution T) (i j : Nat)
    (hne : j ≠ i) : (Timeout.clear m i).timers j = m.timers j := by
  unfold Timeout.clear
  cases m.timers i <;> simp [hne]

theorem timerLive_clear {T : Type} (m : Execution T) (i j : Nat) :
    timerLive (Timeout.clear m i) j =
      if j = i then false else timerLive m j := by
  by_cases hj : j = i
  · subst hj
    match ht : m.timers j with
    | none => simp [Timeout.clear, ht, timerLive]
    | some t => simp [Timeout.clear, ht, timerLive]
  · rw [timerLive, clear_timers_ne m i j hj, if_neg hj, timerLive]

theorem new_runner {T : Type} (m : Execution T) (d : Nat) :
    (Timeout.new m d).1.runner = m.runner := rfl

theorem new_nextTimer {T : Type} (m : Execution T) (d : Nat) :
    (Timeout.new m d).1.nextTimer = m.nextTimer + 1 := rfl

theorem timerLive_new {T : Type} (m : Execution T) (d : Nat) (j : Nat) :
    timerLive (Timeout.new m d).1 j =
      if j = m.nextTimer then true else timerLive m j := by
  by_cases hj : j = m.nextTimer <;> simp [Timeout.new, timerLive, hj]

theorem new_timers_ne {T : Type} (m : Execution T) (d : Nat) (j : Nat)
    (hne : j ≠ m.nextTimer) : (Timeout.new m d).1.timers j = m.timers j := by
  simp [Timeout.new, hne]

/-- A timer that is not live cannot fire: `fireTimer` is the identity. -/
theorem fireTimer_dead {T : Type} (h : Handler T) (m : Execution T)
    (i now : Nat) (hd : timerLive m i = false) :
    fireTimer h m i now = ([], some m) := by
  unfold fireTimer
  match ht : m.timers i with
  | none => rfl
  | some t =>
    rw [timerLive, ht] at hd
    simp at hd
    simp [hd]

/-! ### Claim C6 -/

/-- C6: committing `WaitUntil(end)` stores the state
`WaitUntil{start := now, end}` owning a freshly armed one-shot timer whose
delay is zero when the deadline is not after `now` and `end - now`
otherwise.  The freshness hypothesis (the old state's owned handle was
allocated earlier) reflects timer well-formedness. -/
theorem c6_wait_until_arming {T : Type} (m : Execution T) (r : Runner)
    (end_ now : Nat) (hr : m.runner = some r)
    (hfresh : ∀ i, r.state.ownedTimer = some i → i < m.nextTimer) :
    (apply_control_flow m (ControlFlow.WaitUntil end_) now).runner =
      some ⟨State.WaitUntil now end_ m.nextTimer, r.is_busy⟩ ∧
    (apply_control_flow m (ControlFlow.WaitUntil end_) now).timers
        m.nextTimer =
      some ⟨if end_ ≤ now then 0 else end_ - now, true⟩ := by
  cases hst : r.state with
  | Poll t =>
    have ht : t < m.nextTimer := hfresh t (by rw [hst]; rfl)
    have htne : m.nextTimer ≠ t := Nat.ne_of_gt ht
    constructor
    · simp [apply_control_flow, hr, hst, clear_runner, Timeout.new]
    · rw [show (apply_control_flow m (ControlFlow.WaitUntil end_) now) =
        Timeout.clear
          { (Timeout.new m (if end_ ≤ now then 0 else end_ - now)).1 with
            runner := some { r with
              state := State.WaitUntil now end_ m.nextTimer } } t by
          simp [apply_control_flow, hr, hst, Timeout.new]]
      rw [clear_timers_ne _ t m.nextTimer htne]
      simp [Timeout.new]
  | WaitUntil s e t =>
    have ht : t < m.nextTimer := hfresh t (by rw [hst]; rfl)
    have htne : m.nextTimer ≠ t := Nat.ne_of_gt ht
    constructor
    · simp [apply_control_flow, hr, hst, clear_runner, Timeout.new]
    · rw [show (apply_control_flow m (ControlFlow.WaitUntil end_) now) =
        Timeout.clear
          { (Timeout.new m (if end_ ≤ now then 0 else end_ - now)).1 with
            runner := some { r with
              state := State.WaitUntil now end_ m.nextTimer } } t by
          simp [apply_control_flow, hr, hst, Timeout.new]]
      rw [clear_timers_ne _ t m.nextTimer htne]
      simp [Timeout.new]
  | Init =>
    constructor
    · simp [apply_control_flow, hr, hst, Timeout.new]
    · simp [apply_control_flow, hr, hst, Timeout.new]
  | Wait s =>
    constructor
    · simp [apply_control_flow, hr, hst, Timeout.new]
    · simp [apply_control_flow, hr, hst, Timeout.new]
  | Exit =>
    constructor
    · simp [apply_control_flow, hr, hst, Timeout.new]
    · simp [apply_control_flow, hr, hst, Timeout.new]

/-- Witness for C6: committing `WaitUntil 50` at instant 20 from the waiting
runner arms timer 0 with delay 30. -/
theorem c6_wait_until_arming_witness :
    (apply_control_flow waitMachine (ControlFlow.WaitUntil 50) 20).runner =
      some ⟨State.WaitUntil 20 50 0, false⟩ ∧
    (apply_control_flow waitMachine (ControlFlow.WaitUntil 50) 20).timers 0 =
      some ⟨30, true⟩ := by
  have hmain := c6_wait_until_arming waitMachine ⟨State.Wait 0, false⟩ 50 20
    rfl (by intro i hi; simp [State.ownedTimer] at hi)
  simpa using hmain

/-! ### apply_control_flow characterization -/

/-- With a runner present, `apply_control_flow` is: build (creating a timer
for `Poll`/`WaitUntil`), swap the state, clear the old state's timer. -/
theorem acf_eq {T : Type} (m : Execution T) (r : Runner) (cf : ControlFlow)
    (now : Nat) (hr : m.runner = some r) :
    apply_control_flow m cf now =
      (match r.state with
       | State.Poll t => Timeout.clear (midMachine m r cf now) t
       | State.WaitUntil _ _ t => Timeout.clear (midMachine m r cf now) t
       | _ => midMachine m r cf now) := by
  cases hst : r.state <;> cases cf <;>
    simp [apply_control_flow, hr, hst, builtMachine, midMachine,
      committedState, Timeout.new]

theorem acf_runner {T : Type} (m : Execution T) (r : Runner)
    (cf : ControlFlow) (now : Nat) (hr : m.runner = some r) :
    (apply_control_flow m cf now).runner =
      some ⟨committedState cf now m.nextTimer, r.is_busy⟩ := by
  rw [acf_eq m r cf now hr]
  cases r.state <;> simp [clear_runner, midMachine]

theorem built_nextTimer {T : Type} (m : Execution T) (cf : ControlFlow)
    (now : Nat) :
    m.nextTimer ≤ (builtMachine m cf now).nextTimer := by
  cases cf <;> simp [builtMachine, Timeout.new] <;> omega

theorem acf_nextTimer {T : Type} (m : Execution T) (r : Runner)
    (cf : ControlFlow) (now : Nat) (hr : m.runner = some r) :
    (apply_control_flow m cf now).nextTimer =
      (builtMachine m cf now).nextTimer := by
  rw [acf_eq m r cf now hr]
  cases r.state <;> simp [clear_nextTimer, midMachine]

theorem timerLive_runner_update {T : Type} (m : Execution T)
    (ro : Option Runner) (j : Nat) :
    timerLive { m with runner := ro } j = timerLive m j := rfl

theorem built_timerLive {T : Type} (m : Execution T) (cf : ControlFlow)
    (now : Nat) (j : Nat) :
    timerLive (builtMachine m cf now) j =
      if (committedState cf now m.nextTimer).ownedTimer = some j then true
      else timerLive m j := by
  cases cf <;>
    simp [builtMachine, committedState, State.ownedTimer, timerLive_new] <;>
    by_cases hj : j = m.nextTimer <;> simp [hj] <;> omega

/-- Pointwise liveness after a commit: the old state's timer is dead, the
committed state's timer is live, everything else is untouched. -/
theorem acf_timerLive {T : Type} (m : Execution T) (r : Runner)
    (cf : ControlFlow) (now : Nat) (hr : m.runner = some r) (j : Nat) :
    timerLive (apply_control_flow m cf now) j =
      if r.state.ownedTimer = some j then false
      else if (committedState cf now m.nextTimer).ownedTimer = some j then
        true
      else timerLive m j := by
  rw [acf_eq m r cf now hr]
  cases hst : r.state with
  | Poll t =>
    rw [show (match State.Poll t with
      | State.Poll t => Timeout.clear (midMachine m r cf now) t
      | State.WaitUntil _ _ t => Timeout.clear (midMachine m r cf now) t
      | _ => midMachine m r cf now) =
        Timeout.clear (midMachine m r cf now) t from rfl]
    rw [timerLive_clear]
    rw [show timerLive (midMachine m r cf now) j =
      timerLive (builtMachine m cf now) j from rfl]
    rw [built_timerLive]
    by_cases hjt : j = t <;> simp [State.ownedTimer, hjt, eq_comm]
  | WaitUntil s e t =>
    rw [show (match State.WaitUntil s e t with
      | State.Poll t => Timeout.clear (midMachine m r cf now) t
      | State.WaitUntil _ _ t => Timeout.clear (midMachine m r cf now) t
      | _ => midMachine m r cf now) =
        Timeout.clear (midMachine m r cf now) t from rfl]
    rw [timerLive_clear]
    rw [show timerLive (midMachine m r cf now) j =
      timerLive (builtMachine m cf now) j from rfl]
    rw [built_timerLive]
    by_cases hjt : j = t <;> simp [State.ownedTimer, hjt, eq_comm]
  | Init =>
    rw [show timerLive (midMachine m r cf now) j =
      timerLive (builtMachine m cf now) j from rfl]
    rw [built_timerLive]
    simp [State.ownedTimer]
  | Wait s =>
    rw [show timerLive (midMachine m r cf now) j =
      timerLive (builtMachine m cf now) j from rfl]
    rw [built_timerLive]
    simp [State.ownedTimer]
  | Exit =>
    rw [show timerLive (midMachine m r cf now) j =
      timerLive (builtMachine m cf now) j from rfl]
    rw [built_timerLive]
    simp [State.ownedTimer]

/-- The handle owned by a committed state is the fresh handle, and when one
is owned the build phase advanced the fresh-handle counter. -/
theorem committedState_owned (cf : ControlFlow) (now fresh : Nat) (i : Nat)
    (hi : (committedState cf now fresh).ownedTimer = some i) :
    i = fresh ∧
      ∀ {T : Type} (m : Execution T), m.nextTimer = fresh →
        (builtMachine m cf now).nextTimer = fresh + 1 := by
  cases cf <;> simp [committedState, State.ownedTimer] at hi ⊢ <;>
    (try exact ⟨hi.symm, by intro T m hm; simp [builtMachine, Timeout.new, hm]⟩)

/-! ### Claim C5 -/

/-- C5: a commit first swaps the new state into the runner and then cancels
the timer the old state owned (`Poll`/`WaitUntil`): after any
`apply_control_flow` on a well-formed cell, well-formedness is preserved,
the old state's timer is no longer live, at most one timer is live across
all states, and the superseded timer can no longer fire into the replaced
state (`fireTimer` on it is a no-op). -/
theorem c5_timer_handoff {T : Type} (m : Execution T) (r : Runner)
    (cf : ControlFlow) (now : Nat) (hr : m.runner = some r)
    (hwf : wfTimers m) :
    wfTimers (apply_control_flow m cf now) ∧
    (∀ i, r.state.ownedTimer = some i →
      timerLive (apply_control_flow m cf now) i = false) ∧
    (∀ i j, timerLive (apply_control_flow m cf now) i = true →
      timerLive (apply_control_flow m cf now) j = true → i = j) ∧
    (∀ (h : Handler T) (i now2 : Nat), r.state.ownedTimer = some i →
      fireTimer h (apply_control_flow m cf now) i now2 =
        ([], some (apply_control_flow m cf now))) := by
  obtain ⟨hwf1, hwf2⟩ := hwf
  have hdead : ∀ i, r.state.ownedTimer = some i →
      timerLive (apply_control_flow m cf now) i = false := by
    intro i hi
    rw [acf_timerLive m r cf now hr i, if_pos hi]
  have hlive : ∀ j, timerLive (apply_control_flow m cf now) j = true →
      (committedState cf now m.nextTimer).ownedTimer = some j := by
    intro j hj
    rw [acf_timerLive m r cf now hr j] at hj
    by_cases h1 : r.state.ownedTimer = some j
    · rw [if_pos h1] at hj
      exact absurd hj (by simp)
    · rw [if_neg h1] at hj
      by_cases h2 : (committedState cf now m.nextTimer).ownedTimer = some j
      · exact h2
      · rw [if_neg h2] at hj
        obtain ⟨r0, hr0, hown⟩ := hwf1 j hj
        have hrr : r = r0 := by
          rw [hr] at hr0
          exact Option.some.inj hr0
        rw [← hrr] at hown
        exact absurd hown h1
  refine ⟨⟨?_, ?_⟩, hdead, ?_, ?_⟩
  · intro j hj
    exact ⟨⟨committedState cf now m.nextTimer, r.is_busy⟩,
      acf_runner m r cf now hr, hlive j hj⟩
  · intro r' i hr' hi
    rw [acf_runner m r cf now hr] at hr'
    have hrr : (⟨committedState cf now m.nextTimer, r.is_busy⟩ : Runner) =
        r' := Option.some.inj hr'
    rw [← hrr] at hi
    obtain ⟨hif, hnext⟩ := committedState_owned cf now m.nextTimer i hi
    rw [acf_nextTimer m r cf now hr, hnext m rfl, hif]
    omega
  · intro i j hi hj
    exact Option.some.inj ((hlive i hi).symm.trans (hlive j hj))
  · intro h i now2 hi
    exact fireTimer_dead h (apply_control_flow m cf now) i now2 (hdead i hi)

/-- Witness for C5: committing `Wait` at instant 60 from the armed
`WaitUntil` cell leaves the superseded timer 0 dead. -/
theorem c5_timer_handoff_witness :
    timerLive (apply_control_flow waitUntilMachine ControlFlow.Wait 60) 0 =
      false := by
  have hwf : wfTimers waitUntilMachine := by
    constructor
    · intro i hi
      refine ⟨⟨State.WaitUntil 0 50 0, false⟩, rfl, ?_⟩
      by_cases h0 : i = 0
      · subst h0; rfl
      · exact absurd hi (by simp [timerLive, waitUntilMachine, h0])
    · intro r i hr hi
      have hrr : r = ⟨State.WaitUntil 0 50 0, false⟩ :=
        (Option.some.inj hr).symm
      subst hrr
      simp [State.ownedTimer] at hi
      subst hi
      exact Nat.zero_lt_one
  exact (c5_timer_handoff waitUntilMachine ⟨State.WaitUntil 0 50 0, false⟩
    ControlFlow.Wait 60 rfl hwf).2.1 0 rfl

/-! ### Batch-shape lemmas -/

theorem thenHandle_log_extend {T : Type} (h : Handler T)
    (acc : List (Event T) × Option (Execution T × ControlFlow))
    (event : Event T) :
    ∃ tail, (thenHandle h acc event).1 = acc.1 ++ tail := by
  match hy : acc.2 with
  | none => exact ⟨[], by simp [thenHandle, hy]⟩
  | some y =>
    exact ⟨(handle_event h y.1 event y.2).log, by simp [thenHandle, hy]⟩

theorem send_event_eq_runBatch {T : Type} (h : Handler T) (m : Execution T)
    (event : Event T) (now : Nat) (r : Runner) (sc : StartCause) (b : Bool)
    (hc : closed m = false) (hr : m.runner = some r) (hb : r.is_busy = false)
    (hsc : startCauseOf event r.state = some (sc, b)) :
    send_event h m event now = runBatch h m event now sc b := by
  simp [send_event, hc, hr, hb, hsc]

/-- The delivery log of a batch starts with the start marker. -/
theorem runBatch_log_head {T : Type} (h : Handler T) (m : Execution T)
    (event : Event T) (now : Nat) (sc : StartCause) (b : Bool) (r : Runner)
    (hr : m.runner = some r) :
    ∃ rest, (runBatch h m event now sc b).1 =
      Event.NewEvents sc :: rest := by
  obtain ⟨rest1, h1⟩ := handle_event_log_cons h m (Event.NewEvents sc)
    (current_control_flow m) r hr
  have hs1 : (thenHandle h ([], some (m, current_control_flow m))
      (Event.NewEvents sc)).1 = Event.NewEvents sc :: rest1 := by
    simp [thenHandle, h1]
  simp only [runBatch]
  set s1 := thenHandle h ([], some (m, current_control_flow m))
    (Event.NewEvents sc) with hs1def
  set s2 := if b then s1 else thenHandle h s1 event with hs2def
  set s3 := thenHandle h s2 Event.EventsCleared with hs3def
  have hlog1 : s1.1 = Event.NewEvents sc :: rest1 := hs1
  have hlog2 : ∃ t2, s2.1 = s1.1 ++ t2 := by
    rw [hs2def]
    cases b
    · exact thenHandle_log_extend h s1 event
    · exact ⟨[], by simp⟩
  have hlog3 : ∃ t3, s3.1 = s2.1 ++ t3 := by
    rw [hs3def]
    exact thenHandle_log_extend h s2 Event.EventsCleared
  obtain ⟨t2, hlog2⟩ := hlog2
  obtain ⟨t3, hlog3⟩ := hlog3
  match ho : s3.2 with
  | none =>
    refine ⟨rest1 ++ t2 ++ t3, ?_⟩
    simp [ho, hlog3, hlog2, hlog1]
  | some p =>
    obtain ⟨m3, c3⟩ := p
    by_cases hcl : closed (apply_control_flow m3 c3 now) = true
    · refine ⟨rest1 ++ t2 ++ t3 ++
        (handle_event h (apply_control_flow m3 c3 now)
          Event.LoopDestroyed c3).log, ?_⟩
      simp [ho, hcl, hlog3, hlog2, hlog1]
    · refine ⟨rest1 ++ t2 ++ t3, ?_⟩
      simp [ho, hcl, hlog3, hlog2, hlog1]

/-! ### Claim C7 -/

/-- C7: `set_listener` replaces the whole runner — discarding the prior
callback, which is why the new handler `h` alone appears — resetting the
state to `Init` and the busy flag to false, and immediately submits
`NewEvents(Init)`; consequently, whatever the previous cell contents
(however many registrations happened before), the first event the newly
registered callback observes is `NewEvents StartCause.Init`. -/
theorem c7_set_listener_initial {T : Type} (h : Handler T) (m : Execution T)
    (now : Nat) :
    set_listener h m now =
      send_event h
        { m with runner := some { state := State.Init, is_busy := false } }
        (Event.NewEvents StartCause.Init) now ∧
    (set_listener h m now).1.head? = some (Event.NewEvents StartCause.Init) := by
  refine ⟨rfl, ?_⟩
  have heq : set_listener h m now =
      runBatch h
        { m with runner := some { state := State.Init, is_busy := false } }
        (Event.NewEvents StartCause.Init) now StartCause.Init true := by
    rw [show set_listener h m now = send_event h
      { m with runner := some { state := State.Init, is_busy := false } }
      (Event.NewEvents StartCause.Init) now from rfl]
    exact send_event_eq_runBatch h _ _ now ⟨State.Init, false⟩
      StartCause.Init true rfl rfl rfl rfl
  obtain ⟨rest, hrest⟩ := runBatch_log_head h
    { m with runner := some { state := State.Init, is_busy := false } }
    (Event.NewEvents StartCause.Init) now StartCause.Init true
    ⟨State.Init, false⟩ rfl
  rw [heq, hrest]
  rfl

/-! ### Claim C2 -/

/-- On a closed cell `handle_event` still delivers its argument (the runner
exists), forces `Exit`, and — since the drain guard fails — does nothing
else; in particular a returning call logged exactly the one event. -/
theorem handle_event_closed_log {T : Type} (h : Handler T) (m : Execution T)
    (event : Event T) (control : ControlFlow) (hc : closed m = true)
    (hs : (handle_event h m event control).out.isSome = true) :
    (handle_event h m event control).log = [event] := by
  obtain ⟨r, hr, hx⟩ := closed_true_some hc
  rcases hh : h event control with ⟨c2, subs⟩
  cases subs with
  | cons a l => simp [handle_event, hr, hh] at hs
  | nil => simp [handle_event, hr, hh, hc]

/-- A batch whose commit closes the loop delivers `LoopDestroyed` exactly
once, as the final event of the batch. -/
theorem runBatch_terminating_log {T : Type} (h : Handler T)
    (m : Execution T) (event : Event T) (now : Nat) (sc : StartCause)
    (b : Bool) (m' : Execution T) (hev : event ≠ Event.LoopDestroyed)
    (hout : (runBatch h m event now sc b).2 = some m')
    (hcm : closed m' = true) :
    ∃ pre, (runBatch h m event now sc b).1 =
        pre ++ [Event.LoopDestroyed] ∧
      Event.LoopDestroyed ∉ pre := by
  simp only [runBatch] at hout ⊢
  set s1 := thenHandle h ([], some (m, current_control_flow m))
    (Event.NewEvents sc) with hs1def
  set s2 := if b then s1 else thenHandle h s1 event with hs2def
  set s3 := thenHandle h s2 Event.EventsCleared with hs3def
  have hstep1 : ∀ x, s1.2 = some x →
      s1.1 = [] ∨ s1.1 = [Event.NewEvents sc] := by
    rw [hs1def]
    intro x hx
    rcases thenHandle_log hx with hh | hh
    · left; exact hh
    · right; simpa using hh
  have hstep2 : ∀ x, s2.2 = some x →
      (s2.1 = s1.1 ∨ s2.1 = s1.1 ++ [event]) ∧ ∃ y, s1.2 = some y := by
    by_cases hb : b = true
    · rw [hs2def, if_pos hb]
      intro x hx
      exact ⟨Or.inl rfl, ⟨x, hx⟩⟩
    · rw [hs2def, if_neg hb]
      intro x hx
      exact ⟨thenHandle_log hx, thenHandle_some hx⟩
  have hstep3 : ∀ x, s3.2 = some x →
      (s3.1 = s2.1 ∨ s3.1 = s2.1 ++ [Event.EventsCleared]) ∧
        ∃ y, s2.2 = some y := by
    rw [hs3def]
    intro x hx
    exact ⟨thenHandle_log hx, thenHandle_some hx⟩
  match ho : s3.2 with
  | none => rw [ho] at hout; simp at hout
  | some p =>
    obtain ⟨m3, c3⟩ := p
    rw [ho] at hout
    simp only at hout
    by_cases hcl : closed (apply_control_flow m3 c3 now) = true
    · -- the loop closed in this batch: LoopDestroyed is delivered
      rw [if_pos hcl] at hout
      have hsome : (handle_event h (apply_control_flow m3 c3 now)
          Event.LoopDestroyed c3).out.isSome = true := by
        match hz : (handle_event h (apply_control_flow m3 c3 now)
            Event.LoopDestroyed c3).out with
        | none => rw [hz] at hout; simp at hout
        | some q => simp [hz]
      have hldlog := handle_event_closed_log h (apply_control_flow m3 c3 now)
        Event.LoopDestroyed c3 hcl hsome
      have hnotin : Event.LoopDestroyed ∉ s3.1 := by
        obtain ⟨h3log, y2, hy2⟩ := hstep3 (m3, c3) ho
        obtain ⟨h2log, y1, hy1⟩ := hstep2 y2 hy2
        have h1log := hstep1 y1 hy1
        intro hmem
        rcases h3log with h3 | h3 <;> rw [h3] at hmem <;>
          rcases h2log with h2 | h2 <;> rw [h2] at hmem <;>
          rcases h1log with h1 | h1 <;> rw [h1] at hmem <;>
          simp [eq_comm, hev] at hmem
      refine ⟨s3.1, ?_, hnotin⟩
      simp [hcl, hldlog]
    · rw [if_neg hcl] at hout
      simp at hout
      rw [← hout] at hcm
      exact absurd hcm hcl

/-- C2: once the loop is terminated, `send_event` returns with the cell
unchanged — nothing queued, no callback invoked (empty log); and a call made
on a live cell whose batch commits `Exit` delivers exactly one
`LoopDestroyed`, as the very last event of the batch — after which, by the
first part, no event is ever delivered again. -/
theorem c2_terminated_silence {T : Type} (h : Handler T) (m : Execution T)
    (event : Event T) (now : Nat) :
    (closed m = true → send_event h m event now = ([], some m)) ∧
    (∀ m', closed m = false → event ≠ Event.LoopDestroyed →
      (send_event h m event now).2 = some m' → closed m' = true →
      ∃ pre, (send_event h m event now).1 = pre ++ [Event.LoopDestroyed] ∧
        Event.LoopDestroyed ∉ pre) := by
  constructor
  · intro hc
    simp [send_event, hc]
  · intro m' hc hev hout hcm
    match hrr : m.runner with
    | none =>
      have hsend : send_event h m event now =
          ([], some { m with events := m.events ++ [event] }) := by
        simp [send_event, hc, hrr]
      rw [hsend] at hout
      simp at hout
      rw [← hout] at hcm
      have hcf : closed { m with events := m.events ++ [event] } = false := hc
      exact absurd hcm (by rw [hcf]; simp)
    | some r =>
      match hbusy : r.is_busy with
      | true =>
        have hsend : send_event h m event now =
            ([], some { m with events := m.events ++ [event] }) := by
          simp [send_event, hc, hrr, hbusy]
        rw [hsend] at hout
        simp at hout
        rw [← hout] at hcm
        have hcf : closed { m with events := m.events ++ [event] } = false := hc
        exact absurd hcm (by rw [hcf]; simp)
      | false =>
        match hsc : startCauseOf event r.state with
        | none =>
          have hsend : send_event h m event now = ([], some m) := by
            simp [send_event, hc, hrr, hbusy, hsc]
          rw [hsend] at hout
          simp at hout
          rw [← hout] at hcm
          exact absurd hcm (by rw [hc]; simp)
        | some p =>
          obtain ⟨sc, b⟩ := p
          have hsend := send_event_eq_runBatch h m event now r sc b hc hrr
            hbusy hsc
          rw [hsend] at hout ⊢
          exact runBatch_terminating_log h m event now sc b m' hev hout hcm

/-- Witness for C2: a waiting runner whose callback writes `Exit` receives
`LoopDestroyed` exactly once, at the very end of the batch. -/
theorem c2_terminated_silence_witness :
    ∃ pre, (send_event exitHandler waitMachine (Event.UserEvent 1) 7).1 =
        pre ++ [Event.LoopDestroyed] ∧
      Event.LoopDestroyed ∉ pre :=
  (c2_terminated_silence exitHandler waitMachine (Event.UserEvent 1) 7).2
    ⟨some ⟨State.Exit, false⟩, [], (fun _ => none), 0⟩
    rfl (by decide) rfl rfl

/-! ### Claim C3 -/

/-- C3 (failing run): the callback receives `UserEvent 1` mid-batch and
reentrantly submits the payload `2`; the inner `send_event` runs while
`handle_event` still holds the runner `RefCell` mutably borrowed, so its
`closed()` borrow panics: the batch aborts (`none`), the submitted event is
never queued nor delivered, `EventsCleared` is never delivered, instead of
the claimed queue-and-drain within the same batch. -/
theorem c3_reentrant_submit_panics :
    (send_event submitHandler waitMachine (Event.UserEvent 1) 0).1 =
      [Event.NewEvents (StartCause.WaitCancelled 0 none),
        Event.UserEvent 1] ∧
    (send_event submitHandler waitMachine (Event.UserEvent 1) 0).2 =
      none := by
  exact ⟨rfl, rfl⟩

/-! ### Claim C1 -/

/-- C1 (counterexample): with the runner in `WaitUntil{start 0, end 50}` and
its armed timer 0 firing at the deadline, the delivered batch opens with
`NewEvents StartCause.Poll` — the timer closure submits
`NewEvents(StartCause.Poll)` and `send_event` takes the cause from the event
itself — not with the claimed
`NewEvents (WaitCancelled{start 0, requested_resume some 50})`. -/
theorem c1_wait_until_fire_counterexample :
    (fireTimer quietHandler waitUntilMachine 0 50).1 =
      [Event.NewEvents StartCause.Poll, Event.EventsCleared] ∧
    (fireTimer quietHandler waitUntilMachine 0 50).1.head? ≠
      some (Event.NewEvents (StartCause.WaitCancelled 0 (some 50))) := by
  exact ⟨rfl, by decide⟩

/-- With a runner installed and a non-`Exit` decision, the committed cell is
not closed. -/
theorem acf_closed_of_ne_exit {T : Type} (m : Execution T) (r : Runner)
    (cf : ControlFlow) (now : Nat) (hr : m.runner = some r)
    (hcf : cf ≠ ControlFlow.Exit) :
    closed (apply_control_flow m cf now) = false := by
  rw [closed_some (acf_runner m r cf now hr)]
  cases cf with
  | Exit => exact absurd rfl hcf
  | Poll => rfl
  | Wait => rfl
  | WaitUntil e2 => rfl

/-- C1 (amended): if the callback returned `SleepUntil(deadline)` — the
runner sits in `WaitUntil` with its armed timer and an empty queue — and no
event is submitted before the deadline, then when the timer fires exactly
one batch is delivered, and its opening start marker carries the cause
`StartCause.Poll` (`WokeFromPoll`), not `WaitCancelled`: the log is exactly
`[NewEvents Poll, EventsCleared]` (for a callback that submits nothing and
does not terminate the loop), and the batch completes without panic. -/
theorem c1_wait_until_fire_amended {T : Type} (h : Handler T)
    (m : Execution T) (s e tid d now : Nat)
    (hr : m.runner = some ⟨State.WaitUntil s e tid, false⟩)
    (hq : m.events = [])
    (ht : m.timers tid = some ⟨d, true⟩)
    (hsub : ∀ ev c, (h ev c).2 = ([] : List T))
    (hnx : ∀ ev c, (h ev c).1 ≠ ControlFlow.Exit) :
    (fireTimer h m tid now).1 =
      [Event.NewEvents StartCause.Poll, Event.EventsCleared] ∧
    (fireTimer h m tid now).2.isSome = true := by
  have hquiet : ∀ (mm : Execution T) (ev : Event T) (c : ControlFlow),
      mm.runner = some ⟨State.WaitUntil s e tid, false⟩ → mm.events = [] →
      handle_event h mm ev c = ⟨[ev], some (mm, (h ev c).1)⟩ := by
    intro mm ev c hrm hqm
    obtain ⟨ro, es, ts, nt⟩ := mm
    simp only at hrm hqm
    subst hrm
    subst hqm
    rcases hh : h ev c with ⟨cc, subs⟩
    have hsubs : subs = [] := by
      have hx := hsub ev c
      rw [hh] at hx
      exact hx
    subst hsubs
    simp [handle_event, hh, closed, State.is_exit]
  have hstep : fireTimer h m tid now =
      send_event h
        { m with timers := fun j =>
            if j = tid then some ⟨d, false⟩ else m.timers j }
        (Event.NewEvents StartCause.Poll) now := by
    unfold fireTimer
    rw [ht]
    simp
  rw [hstep]
  set mf : Execution T :=
    { m with timers := fun j =>
        if j = tid then some ⟨d, false⟩ else m.timers j } with hmf
  have hrf : mf.runner = some ⟨State.WaitUntil s e tid, false⟩ := hr
  have hqf : mf.events = [] := hq
  have hcf : closed mf = false := (closed_some hrf).trans rfl
  rw [send_event_eq_runBatch h mf (Event.NewEvents StartCause.Poll) now
    ⟨State.WaitUntil s e tid, false⟩ StartCause.Poll true hcf hrf rfl rfl]
  simp only [runBatch]
  rw [show thenHandle h ([], some (mf, current_control_flow mf))
      (Event.NewEvents StartCause.Poll) =
    ([Event.NewEvents StartCause.Poll], some (mf,
      (h (Event.NewEvents StartCause.Poll)
        (current_control_flow mf)).1)) by
    simp [thenHandle, hquiet mf _ _ hrf hqf]]
  simp only [if_true]
  rw [show thenHandle h ([Event.NewEvents StartCause.Poll], some (mf,
      (h (Event.NewEvents StartCause.Poll)
        (current_control_flow mf)).1)) Event.EventsCleared =
    ([Event.NewEvents StartCause.Poll, Event.EventsCleared], some (mf,
      (h Event.EventsCleared
        (h (Event.NewEvents StartCause.Poll)
          (current_control_flow mf)).1).1)) by
    simp [thenHandle, hquiet mf _ _ hrf hqf]]
  simp only
  rw [if_neg (by
    rw [acf_closed_of_ne_exit mf ⟨State.WaitUntil s e tid, false⟩ _ now hrf
      (hnx _ _)]
    simp)]
  exact ⟨rfl, rfl⟩

/-- Witness for C1's amended theorem at the concrete armed cell. -/
theorem c1_wait_until_fire_amended_witness :
    (fireTimer quietHandler waitUntilMachine 0 50).1 =
      [Event.NewEvents StartCause.Poll, Event.EventsCleared] ∧
    (fireTimer quietHandler waitUntilMachine 0 50).2.isSome = true :=
  c1_wait_until_fire_amended quietHandler waitUntilMachine 0 50 0 50 50
    rfl rfl rfl (fun _ _ => rfl) (fun _ _ hx => ControlFlow.noConfusion hx)
